import Mathlib

/-!
Verification development for the agentic tool-orchestration and dynamic
tool-synthesis engine of the `agentic_llm` repository.

The repository ships the React frontend (contexts under
`frontend/chatbot-ui/src/contexts`) and extensive documentation of the
Python backend (MCP server, dynamic tool manager, orchestrating character).
The frontend contexts are embedded here directly from their JavaScript
source.  The backend components (Tool Registry, Capability Contract,
Deleted-Tool Ledger, Dynamic Tool Synthesizer, Agentic Orchestrator,
Streaming Response Composer) are not part of the available sources, so
they are modelled from the specification, as indicated on each definition.
-/

namespace AgenticLLM

/-! ## Data model -/

/-- Parameter types of a tool parameter schema. -/
inductive PType where
  | tString
  | tNumber
  | tBool
deriving DecidableEq, Repr

/-- One entry of a tool's ordered parameter schema:
`{name, type, required, default, description}` (default and description do
not affect any verified property's control flow and are kept as data). -/
structure ParamSpec where
  name : String
  ptype : PType
  required : Bool
  defaultValue : Option String := none
  description : String := ""
deriving DecidableEq, Repr

/-- Provenance tag of a tool. -/
inductive ToolKind where
  | builtin
  | dynamic
deriving DecidableEq, Repr

/-- Descriptor of a registered tool. -/
structure ToolDescriptor where
  name : String
  description : String
  parameterSchema : List ParamSpec
  kind : ToolKind
deriving DecidableEq, Repr

/-- Runtime argument values handed to a tool. -/
inductive Value where
  | vStr (s : String)
  | vNum (n : Int)
  | vBool (b : Bool)
deriving DecidableEq, Repr

/-- Key-value argument mapping of a `ToolInvocationRequest`. -/
abbrev Args := List (String × Value)

/-- Tagged result variants of a tool invocation. -/
inductive ToolInvocationResult where
  | success (payload : String)
  | validationFailure (reason : String)
  | executionFailure (reason : String)
  | timeout
deriving DecidableEq, Repr

/-- Modelled from the spec: behaviour of a tool's `execute` body, abstracted
for the bounded-timeout model of §5 — the number of computation steps the
body needs (`none` means it would never finish on its own) and the outcome
it produces when allowed to finish. -/
structure ToolBehavior where
  stepsNeeded : Option Nat
  outcome : Except String String

/-- The executable binding of a tool: arguments to abstract behaviour. -/
abbrev Exec := Args → ToolBehavior

/-- A live tool: descriptor plus executable binding. -/
structure Tool where
  descriptor : ToolDescriptor
  exec : Exec

/-- Errors of the Tool Registry contract. -/
inductive RegistryError where
  | registryConflict
  | toolNotFoundError
deriving DecidableEq, Repr

/-! ## Tool Registry

Modelled from the spec (§4.1): an in-memory table mapping tool name to
descriptor plus executable capability, with case-normalized name
comparison; the backend implementation (`mcp_server.py`) is not among the
available sources. -/

/-- Lower-casing over the character list (the kernel-reducible equivalent
of `String.toLower`). -/
def lowerString (s : String) : String := String.mk (s.data.map Char.toLower)

/-- Case normalization applied to tool names before comparison. -/
def normalizeName (s : String) : String := lowerString s

/-- The registry: association list keyed by normalized tool name. -/
abbrev Registry := List (String × Tool)

/-- Modelled from the spec: `lookup(name)` returns descriptor+executable or
`ToolNotFoundError`. -/
def lookupTool (r : Registry) (name : String) : Except RegistryError Tool :=
  match r.find? (fun e => e.1 == normalizeName name) with
  | some e => .ok e.2
  | none => .error .toolNotFoundError

/-- Modelled from the spec: `register(descriptor, executable)` succeeds
unless the name is already present, in which case it fails with
`RegistryConflict` — reject, never silently overwrite. -/
def registerTool (r : Registry) (d : ToolDescriptor) (ex : Exec) :
    Except RegistryError Registry :=
  if r.any (fun e => e.1 == normalizeName d.name) then
    .error .registryConflict
  else
    .ok ((normalizeName d.name, { descriptor := d, exec := ex }) :: r)

/-- Modelled from the spec: `unregister(name)` fails with
`ToolNotFoundError` if absent; otherwise removes the descriptor and its
executable binding. -/
def unregisterTool (r : Registry) (name : String) :
    Except RegistryError Registry :=
  if r.any (fun e => e.1 == normalizeName name) then
    .ok (r.filter (fun e => !(e.1 == normalizeName name)))
  else
    .error .toolNotFoundError

/-! ## Deleted-Tool Ledger

Modelled from the spec (§4.4) and `src/tools/dynamic/README.md` (the
`deleted_tools.json` file): a durable, append-only set of deletion
records, consulted by the synthesizer to block resurrection.  The backend
implementation (`dynamic_tool_manager.py`) is not among the available
sources. -/

/-- A stable fingerprint of a capability: normalized name plus the shape
of the parameter schema, so a regenerated tool with different wording is
recognized as the same capability. -/
structure Fingerprint where
  fpName : String
  fpShape : List (String × PType × Bool)
deriving DecidableEq, Repr

/-- Derive the fingerprint of a descriptor. -/
def fingerprintOf (d : ToolDescriptor) : Fingerprint :=
  { fpName := normalizeName d.name
    fpShape := d.parameterSchema.map (fun p => (p.name, p.ptype, p.required)) }

/-- One record of the Deleted-Tool Ledger. -/
structure DeletedToolRecord where
  fingerprint : Fingerprint
  name : String
  deletedAt : Nat
deriving DecidableEq, Repr

/-- The ledger: the durable list of deletion records. -/
abbrev Ledger := List DeletedToolRecord

/-- Modelled from the spec: `recordDeletion(descriptor)` computes and
stores the fingerprint. -/
def recordDeletion (led : Ledger) (d : ToolDescriptor) (now : Nat) : Ledger :=
  { fingerprint := fingerprintOf d, name := d.name, deletedAt := now } :: led

/-- Modelled from the spec: `isBlocked(fingerprint)`, the single query the
synthesizer uses against the ledger. -/
def isBlocked (led : Ledger) (fp : Fingerprint) : Bool :=
  led.any (fun dr => dr.fingerprint == fp)

/-! ## System state and operations

The shared mutable state of the engine: the live registry, the durable
ledger, and the durable dynamic-tool storage area (§6). -/

structure SystemState where
  registry : Registry
  ledger : Ledger
  storage : List (String × Tool)

/-- Modelled from the spec: stateful `register` as used at startup — on
`RegistryConflict` the state is left unchanged (no silent overwrite). -/
def registerOp (st : SystemState) (d : ToolDescriptor) (ex : Exec) :
    SystemState × Except RegistryError Unit :=
  match registerTool st.registry d ex with
  | .ok r' => ({ st with registry := r' }, .ok ())
  | .error e => (st, .error e)

/-- Modelled from the spec: `deleteTool(name)` must both `unregister` from
the live registry and `recordDeletion` in the ledger atomically; the
persisted module is removed from storage as well so a restart does not
re-load a deleted capability. -/
def deleteToolOp (st : SystemState) (name : String) (now : Nat) :
    SystemState × Except RegistryError Unit :=
  match lookupTool st.registry name with
  | .error e => (st, .error e)
  | .ok t =>
    match unregisterTool st.registry name with
    | .error e => (st, .error e)
    | .ok r' =>
      ({ st with
          registry := r'
          ledger := recordDeletion st.ledger t.descriptor now
          storage := st.storage.filter (fun e => !(e.1 == normalizeName name)) },
        .ok ())

/-! ## Dynamic Tool Synthesizer

Modelled from the spec (§4.3): the sequential pipeline — structural
validation, safety gate, ledger check, persistence and hot-load plus
registration.  The structural and safety gates and the loader for
generated source are abstracted as parameters, since they inspect text
produced by the generative model. -/

/-- A synthesis candidate returned by the generative model. -/
structure Candidate where
  name : String
  description : String
  parameterSchema : List ParamSpec
  generatedSource : String

/-- The descriptor a successful synthesis registers. -/
def descriptorOfCandidate (c : Candidate) : ToolDescriptor :=
  { name := c.name
    description := c.description
    parameterSchema := c.parameterSchema
    kind := .dynamic }

/-- Fingerprint of a synthesis candidate. -/
def candidateFingerprint (c : Candidate) : Fingerprint :=
  fingerprintOf (descriptorOfCandidate c)

/-- Failure modes of the synthesis pipeline. -/
inductive SynthFailure where
  | synthesisFailure
  | ledgerBlocked
deriving DecidableEq, Repr

/-- Modelled from the spec: the synthesizer pipeline of §4.3.  Gates are
checked in order; the ledger check happens before persistence; on passing
all gates the source is persisted, loaded and registered; a registration
conflict is a `SynthesisFailure` with no rename-and-retry. -/
def synthesize (structuralOk safetyOk : Candidate → Bool)
    (loadExec : Candidate → Exec) (st : SystemState) (c : Candidate) :
    SystemState × Except SynthFailure ToolDescriptor :=
  if structuralOk c = false then (st, .error .synthesisFailure)
  else if safetyOk c = false then (st, .error .synthesisFailure)
  else if isBlocked st.ledger (candidateFingerprint c) then
    (st, .error .ledgerBlocked)
  else
    let d := descriptorOfCandidate c
    match registerTool st.registry d (loadExec c) with
    | .error _ => (st, .error .synthesisFailure)
    | .ok r' =>
      ({ st with
          registry := r'
          storage :=
            (normalizeName d.name,
              { descriptor := d, exec := loadExec c }) :: st.storage },
        .ok d)

/-- Modelled from the spec: load all persisted tools into a fresh
registry, ignoring conflicts (first registration wins). -/
def loadTools (ts : List Tool) (r : Registry) : Registry :=
  ts.foldl
    (fun acc t =>
      match registerTool acc t.descriptor t.exec with
      | .ok r' => r'
      | .error _ => acc)
    r

/-- Modelled from the spec: a process restart — the registry is rebuilt
from the built-ins and the durable storage area, while the ledger and the
storage are durable and survive unchanged. -/
def restartState (builtins : List Tool) (st : SystemState) : SystemState :=
  { registry := loadTools (builtins ++ st.storage.map (·.2)) []
    ledger := st.ledger
    storage := st.storage }

/-! ## Reachability -/

/-- One observable step of the engine on its shared state: a synthesis
attempt, an operator deletion, a startup registration, or a process
restart. -/
inductive SysStep : SystemState → SystemState → Prop where
  | synth (structuralOk safetyOk : Candidate → Bool) (loadExec : Candidate → Exec)
      (c : Candidate) (st : SystemState) :
      SysStep st (synthesize structuralOk safetyOk loadExec st c).1
  | deleteT (name : String) (now : Nat) (st : SystemState) :
      SysStep st (deleteToolOp st name now).1
  | registerStartup (d : ToolDescriptor) (ex : Exec) (st : SystemState) :
      SysStep st (registerOp st d ex).1
  | restart (builtins : List Tool) (st : SystemState) :
      SysStep st (restartState builtins st)

/-- States reachable from a given state by engine steps. -/
def SysReachable : SystemState → SystemState → Prop :=
  Relation.ReflTransGen SysStep

/-! ## Tool Capability Contract

Modelled from the spec (§4.2): the uniform validate-then-execute layer.
The backend implementation (`src/tools/base.py`) is not among the
available sources; only its usage convention appears in the built-in and
dynamic tool documentation. -/

/-- Look up an argument value by parameter name. -/
def findArg (args : Args) (n : String) : Option Value :=
  (args.find? (fun a => a.1 == n)).map (·.2)

/-- Modelled from the spec: whether a supplied value is type-coercible to
a declared parameter type. -/
def typeCoercible (v : Value) (t : PType) : Bool :=
  match v, t with
  | .vStr _, .tString => true
  | .vNum _, .tString => true
  | .vBool _, .tString => true
  | .vStr s, .tNumber => s.toInt?.isSome
  | .vNum _, .tNumber => true
  | .vBool _, .tNumber => false
  | .vStr s, .tBool => s == "true" || s == "false"
  | .vNum _, .tBool => false
  | .vBool _, .tBool => true

/-- One parameter is satisfied by the argument mapping: a non-required
parameter is always fine; a required one must be present and
type-coercible. -/
def paramOk (args : Args) (p : ParamSpec) : Bool :=
  !p.required ||
    (match findArg args p.name with
     | some v => typeCoercible v p.ptype
     | none => false)

/-- Modelled from the spec: `validateArguments(arguments, parameterSchema)`
checks every required parameter is present and type-coercible; unknown
extra parameters are ignored. -/
def validateArguments (args : Args) (schema : List ParamSpec) : Bool :=
  schema.all (paramOk args)

/-- Modelled from the spec (§5): run a tool body under a bounded step
budget — if the body needs more steps than the budget (or would never
finish), the invocation yields `Timeout` rather than hanging. -/
def execWithTimeout (budget : Nat) (b : ToolBehavior) : ToolInvocationResult :=
  match b.stepsNeeded with
  | none => .timeout
  | some k =>
    if k ≤ budget then
      match b.outcome with
      | .ok p => .success p
      | .error reason => .executionFailure reason
    else .timeout

/-- Modelled from the spec: the contract layer — `validateArguments` runs
before `execute`; failures short-circuit with `ValidationFailure` before
any tool-specific code runs; execution itself is under the timeout. -/
def invokeTool (budget : Nat) (t : Tool) (args : Args) : ToolInvocationResult :=
  if validateArguments args t.descriptor.parameterSchema then
    execWithTimeout budget (t.exec args)
  else
    .validationFailure "missing or invalid required parameter"

/-! ## Agentic Orchestrator

Modelled from the spec (§4.5): the per-turn state machine.  The backend
implementation (`agentic_character.py`) is not among the available
sources. -/

/-- The per-turn response the orchestrator composes. -/
inductive ResponseKind where
  | direct (text : String)
  | toolAnswer (payload : String)
  | failureExplanation (r : ToolInvocationResult)
  | apology
deriving Repr

/-- Result of intent classification for the current user turn. -/
inductive Intent where
  | direct (answer : String)
  | useTool (name : String) (args : Args)
  | needsSynthesis (c : Candidate) (args : Args)

/-- The states of the per-turn orchestrator machine. -/
inductive Phase where
  | receiveMessage
  | classifyIntent
  | selectTool (name : String) (args : Args)
  | executeTool (name : String) (args : Args)
  | integrateResult (payload : String)
  | triggerSynthesis (c : Candidate) (args : Args)
  | composeResponse (msg : ResponseKind)
  | appendHistory
  | done

/-- The full state of one conversation turn. -/
structure TurnState where
  phase : Phase
  sys : SystemState
  synthesisAttempted : Bool
  synthCount : Nat
  response : Option ResponseKind

/-- External collaborators of one turn: the classification decision of the
generative model, the synthesis gates and loader, and the execution
budget. -/
structure OrchOracle where
  classify : Intent
  structuralOk : Candidate → Bool
  safetyOk : Candidate → Bool
  loadExec : Candidate → Exec
  budget : Nat

/-- The transition out of `ClassifyIntent`, guarded by the
`synthesisAttempted` flag so a re-triggering classification cannot run
synthesis twice in one turn. -/
def classifyPhase (ts : TurnState) (i : Intent) : TurnState :=
  match i with
  | .direct txt => { ts with phase := .composeResponse (.direct txt) }
  | .useTool n a => { ts with phase := .selectTool n a }
  | .needsSynthesis c a =>
    if ts.synthesisAttempted then
      { ts with phase := .composeResponse .apology }
    else
      { ts with phase := .triggerSynthesis c a }

/-- The transition out of `ExecuteTool` once the invocation result is
known: success integrates the payload, every failure variant goes to a
user-facing failure explanation (no crash, no silent swallow). -/
def execResultPhase (ts : TurnState) (r : ToolInvocationResult) : TurnState :=
  match r with
  | .success p => { ts with phase := .integrateResult p }
  | r' => { ts with phase := .composeResponse (.failureExplanation r') }

/-- The transition out of `ExecuteTool` given the registry lookup. -/
def execPhase (ts : TurnState) (look : Except RegistryError Tool)
    (bud : Nat) (a : Args) : TurnState :=
  match look with
  | .error _ =>
    { ts with phase :=
        .composeResponse (.failureExplanation (.executionFailure "tool not found")) }
  | .ok t => execResultPhase ts (invokeTool bud t a)

/-- The transition out of `TriggerSynthesis` given the synthesis result:
success re-enters `ExecuteTool` with the new tool exactly once; failure
goes straight to the apology. -/
def synthPhase (ts : TurnState) (sys' : SystemState)
    (res : Except SynthFailure ToolDescriptor) (a : Args) : TurnState :=
  match res with
  | .ok d =>
    { ts with
        sys := sys'
        synthesisAttempted := true
        synthCount := ts.synthCount + 1
        phase := .executeTool d.name a }
  | .error _ =>
    { ts with
        sys := sys'
        synthesisAttempted := true
        synthCount := ts.synthCount + 1
        phase := .composeResponse .apology }

/-- Modelled from the spec: one transition of the per-turn orchestrator
state machine of §4.5. -/
def orchStep (ora : OrchOracle) (ts : TurnState) : TurnState :=
  match ts.phase with
  | .receiveMessage => { ts with phase := .classifyIntent }
  | .classifyIntent => classifyPhase ts ora.classify
  | .selectTool n a => { ts with phase := .executeTool n a }
  | .executeTool n a => execPhase ts (lookupTool ts.sys.registry n) ora.budget a
  | .integrateResult p => { ts with phase := .composeResponse (.toolAnswer p) }
  | .triggerSynthesis c a =>
    synthPhase ts
      (synthesize ora.structuralOk ora.safetyOk ora.loadExec ts.sys c).1
      ((synthesize ora.structuralOk ora.safetyOk ora.loadExec ts.sys c).2) a
  | .composeResponse m => { ts with response := some m, phase := .appendHistory }
  | .appendHistory => { ts with phase := .done }
  | .done => ts

/-- Fresh turn state for an incoming user message. -/
def initTurn (sys : SystemState) : TurnState :=
  { phase := .receiveMessage
    sys := sys
    synthesisAttempted := false
    synthCount := 0
    response := none }

/-- A whole turn: the machine reaches its terminal state in at most eight
transitions. -/
def runTurn (ora : OrchOracle) (sys : SystemState) : TurnState :=
  (orchStep ora)^[8] (initTurn sys)

/-- The invariant that bounds synthesis to one attempt per turn. -/
def synthCountInv (ts : TurnState) : Prop :=
  ts.synthCount ≤ 1 ∧
  (ts.synthesisAttempted = false → ts.synthCount = 0) ∧
  (∀ c a, ts.phase = .triggerSynthesis c a → ts.synthesisAttempted = false)

/-! ## Streaming Response Composer

Modelled from the spec (§4.6, §6) and the streamed turn protocol consumed
in `frontend/chatbot-ui/src/contexts/AuthContext.js` (`stream`,
`tool_code`, `tool_output`, `end` events): the composer serializes the
orchestrator's internal events into typed external events, preserving
emission order exactly.  The backend producer is not among the available
sources. -/

/-- Internal events the orchestrator hands the composer. -/
inductive InternalEvent where
  | textChunk (s : String)
  | toolInvoked (name : String) (args : Args)
  | toolResult (payload : String)
  | endOfTurn

/-- Types of the externally consumable stream events. -/
inductive ExtEventType where
  | text
  | toolCode
  | toolOutput
  | endEvent
deriving DecidableEq, Repr

/-- One externally consumable stream event. -/
structure ExtEvent where
  type : ExtEventType
  content : String
deriving DecidableEq, Repr

/-- Serialization of one internal event. -/
def serializeEvent : InternalEvent → ExtEvent
  | .textChunk s => { type := .text, content := s }
  | .toolInvoked n _ => { type := .toolCode, content := n }
  | .toolResult p => { type := .toolOutput, content := p }
  | .endOfTurn => { type := .endEvent, content := "" }

/-- Modelled from the spec: the composer serializes the internal event
sequence in the exact order produced. -/
def compose (evs : List InternalEvent) : List ExtEvent :=
  evs.map serializeEvent

/-- Modelled from the spec: the internal event sequence the orchestrator
produces for one completed turn — text before the optional tool
invocation/result pair, text after, then exactly one completion event. -/
def produceTurn (pre : List String) (tool : Option (String × Args × String))
    (post : List String) : List InternalEvent :=
  pre.map .textChunk ++
    (match tool with
     | some (n, a, p) => [.toolInvoked n a, .toolResult p]
     | none => []) ++
    post.map .textChunk ++ [.endOfTurn]

/-- Recognize a text event. -/
def isText : ExtEvent → Bool
  | { type := .text, content := _ } => true
  | _ => false

/-- Recognize the completion event. -/
def isEndEvent : ExtEvent → Bool
  | { type := .endEvent, content := _ } => true
  | _ => false

/-- Recognize a tool-code event. -/
def isToolCode : ExtEvent → Bool
  | { type := .toolCode, content := _ } => true
  | _ => false

/-- Recognize a tool-output event. -/
def isToolOutput : ExtEvent → Bool
  | { type := .toolOutput, content := _ } => true
  | _ => false

/-- The stream after any trailing text must be exactly the end event. -/
def matchesEnd : List ExtEvent → Bool
  | [e] => isEndEvent e
  | _ => false

/-- After the leading text chunks: either the end event directly, or a
matched tool-code/tool-output pair followed by text chunks and the end
event. -/
def matchesTail : List ExtEvent → Bool
  | [e] => isEndEvent e
  | e1 :: e2 :: rest =>
    isToolCode e1 && isToolOutput e2 && matchesEnd (rest.dropWhile isText)
  | [] => false

/-- Decides the turn stream pattern
`TextChunk* (ToolInvoked ToolResult)? TextChunk* End`. -/
def matchesTurnPattern (l : List ExtEvent) : Bool :=
  matchesTail (l.dropWhile isText)

/-- Number of completion events in a stream. -/
def countEndEvents (l : List ExtEvent) : Nat :=
  (l.filter isEndEvent).length

/-! ## Frontend: CharacterContext (embedded from source)

From `frontend/chatbot-ui/src/contexts/CharacterContext.js`; the file
holds two revisions of the provider whose `deleteCharacter` bodies share
the same deletion logic. -/

/-- A character as the frontend context holds it. -/
structure Character where
  name : String
  personality : String := ""
  background : String := ""
deriving DecidableEq, Repr

/-- The provider state `deleteCharacter` touches. -/
structure CharacterContextState where
  characters : List Character
  selectedCharacter : Option Character
  error : String
deriving DecidableEq, Repr

/-- `deleteCharacter(name)` from `CharacterContext.js`: `success` stands
for the `axios.delete` call resolving (it throws before any state update
otherwise).  On success the character is filtered out of the list and, if
it was selected, the selection moves to the first remaining character or
to null; on failure only the error message changes. -/
def deleteCharacter (success : Bool) (name : String)
    (s : CharacterContextState) : CharacterContextState × Bool :=
  let s0 := { s with error := "" }
  if success then
    let remaining := s0.characters.filter (fun c => !(c.name == name))
    let selected' :=
      match s0.selectedCharacter with
      | some sel => if sel.name == name then remaining.head? else some sel
      | none => none
    ({ s0 with characters := remaining, selectedCharacter := selected' }, true)
  else
    ({ s0 with error := "Karakter silinemedi. Lütfen tekrar deneyin." }, false)

/-! ## Frontend: ChatContext (embedded from source)

From `memory-bank/frontend-example-implementation.js`: the
conversation-based `ChatContext`, with the HTTP layer represented by a
list of issued requests and an oracle for their responses. -/

/-- A chat message as the context holds it. -/
structure ChatMessage where
  id : String
  conversationId : String
  role : String
  content : String
  attachments : List String := []
  timestamp : String
deriving DecidableEq, Repr

/-- A conversation as the context holds it. -/
structure Conversation where
  id : String
  title : String
  updatedAt : String := ""
deriving DecidableEq, Repr

/-- An HTTP request the context issues through axios. -/
inductive HttpRequest where
  | getReq (url : String)
  | postReq (url : String) (body : String)
  | deleteReq (url : String)
  | patchReq (url : String) (body : String)
deriving DecidableEq, Repr

/-- The provider state `sendMessage` touches. -/
structure ChatContextState where
  conversations : List Conversation
  activeConversation : Option Conversation
  messages : List ChatMessage
  isTyping : Bool
  loading : Bool
  error : String
deriving DecidableEq, Repr

/-- Responses of the backend for the requests one `sendMessage` call can
issue (`none` models the request failing). -/
structure ChatApiOracle where
  createConversationResp : Option Conversation
  chatResp : Option String

/-- Ambient context of one `sendMessage` call: the selected character and
the fresh ids and timestamp the call generates. -/
structure ChatEnv where
  selectedCharacter : Option Character
  uuidUser : String
  uuidAssistant : String
  now : String

/-- `createConversation(character)` from the example implementation:
posts to `/api/v1/conversations/`, prepends the new conversation,
activates it and clears the messages; on failure sets the error text. -/
def createConversation (api : ChatApiOracle) (character : Option Character)
    (s : ChatContextState) :
    ChatContextState × List HttpRequest × Option Conversation :=
  let s0 := { s with error := "", loading := true }
  match character with
  | none =>
    ({ s0 with
        error := "Failed to create conversation. Please try again."
        loading := false }, [], none)
  | some ch =>
    let req := HttpRequest.postReq "/api/v1/conversations/"
      ("character_name=" ++ ch.name)
    match api.createConversationResp with
    | none =>
      ({ s0 with
          error := "Failed to create conversation. Please try again."
          loading := false }, [req], none)
    | some newConv =>
      ({ s0 with
          conversations := newConv :: s0.conversations
          activeConversation := some newConv
          messages := []
          loading := false }, [req], some newConv)

/-- Move the conversation with the given id to the front of the list with
a fresh `updated_at`, as the tail of `sendMessage` does. -/
def bumpConversation (id : String) (now : String)
    (convs : List Conversation) : List Conversation :=
  match convs.find? (fun c => c.id == id) with
  | some c => { c with updatedAt := now } :: convs.eraseP (fun c' => c'.id == id)
  | none => convs

/-- The body of `sendMessage` once a conversation id is resolved:
optimistically append the user message, start the typing indicator, post
to `/api/v1/chat/:id`; on success append the assistant message, stop the
indicator and bump the conversation; on failure set the error text and
stop the indicator. -/
def sendMessageCore (api : ChatApiOracle) (env : ChatEnv)
    (conv : Conversation) (content : String) (attachments : List String)
    (s : ChatContextState) (acc : List HttpRequest) :
    ChatContextState × List HttpRequest × Option ChatMessage :=
  let userMsg : ChatMessage :=
    { id := env.uuidUser
      conversationId := conv.id
      role := "user"
      content := content
      attachments := attachments
      timestamp := env.now }
  let s1 := { s with messages := s.messages ++ [userMsg], isTyping := true }
  let req := HttpRequest.postReq ("/api/v1/chat/" ++ conv.id) content
  match api.chatResp with
  | none =>
    ({ s1 with
        error := "Failed to send message. Please try again."
        isTyping := false }, acc ++ [req], none)
  | some aiContent =>
    let aiMsg : ChatMessage :=
      { id := env.uuidAssistant
        conversationId := conv.id
        role := "assistant"
        content := aiContent
        attachments := []
        timestamp := env.now }
    ({ s1 with
        messages := s1.messages ++ [aiMsg]
        isTyping := false
        conversations := bumpConversation conv.id env.now s1.conversations },
      acc ++ [req], some userMsg)

/-- Whitespace trimming over the character list (the kernel-reducible
equivalent of `String.trim`, mirroring JavaScript's `String.trim`). -/
def trimString (s : String) : String :=
  String.mk
    (((s.data.dropWhile Char.isWhitespace).reverse.dropWhile
        Char.isWhitespace).reverse)

/-- `sendMessage(content, attachments)` from
`memory-bank/frontend-example-implementation.js`: the guard
`if (!content.trim() && attachments.length === 0) return;` comes first;
then a conversation is created if none is active, and the message is
posted. -/
def sendMessage (api : ChatApiOracle) (env : ChatEnv) (content : String)
    (attachments : List String) (s : ChatContextState) :
    ChatContextState × List HttpRequest × Option ChatMessage :=
  if (trimString content).isEmpty && attachments.isEmpty then (s, [], none)
  else
    let s0 := { s with error := "" }
    match s0.activeConversation with
    | some conv => sendMessageCore api env conv content attachments s0 []
    | none =>
      match env.selectedCharacter with
      | none =>
        ({ s0 with
            error := "Failed to send message. Please try again."
            isTyping := false }, [], none)
      | some ch =>
        match createConversation api (some ch) s0 with
        | (s1, reqs1, some conv) =>
          sendMessageCore api env conv content attachments s1 reqs1
        | (s1, reqs1, none) =>
          ({ s1 with
              error := "Failed to send message. Please try again."
              isTyping := false }, reqs1, none)

/-! ## Sample data (concrete inputs used to exercise the theorems) -/

/-- A trivially terminating executable binding. -/
def sampleExec : Exec := fun _ => { stepsNeeded := some 0, outcome := .ok "ok" }

/-- An executable binding that would never finish on its own. -/
def hangingExec : Exec := fun _ => { stepsNeeded := none, outcome := .ok "never" }

/-- A sample descriptor with the given name and no parameters. -/
def sampleDescriptor (n : String) : ToolDescriptor :=
  { name := n, description := "sample", parameterSchema := [], kind := .builtin }

/-- A sample tool with the given name. -/
def sampleTool (n : String) : Tool :=
  { descriptor := sampleDescriptor n, exec := sampleExec }

/-- A system state with one registered tool named `alpha`. -/
def sampleState1 : SystemState :=
  { registry := [("alpha", sampleTool "alpha")], ledger := [], storage := [] }

/-- A sample synthesis candidate. -/
def sampleCandidate : Candidate :=
  { name := "currency_converter"
    description := "converts between currencies"
    parameterSchema := []
    generatedSource := "class CurrencyConverter: pass" }

/-- A system state whose ledger records the deletion of the sample
candidate's capability. -/
def sampleDeletedState : SystemState :=
  { registry := []
    ledger := [{ fingerprint := candidateFingerprint sampleCandidate
                 name := "currency_converter"
                 deletedAt := 3 }]
    storage := [] }

/-- A sample oracle for the orchestrator. -/
def sampleOracle : OrchOracle :=
  { classify := .direct "hello"
    structuralOk := fun _ => true
    safetyOk := fun _ => true
    loadExec := fun _ => sampleExec
    budget := 10 }

/-- A turn state about to run a synthesis that the ledger blocks. -/
def sampleBlockedTurn : TurnState :=
  { phase := .triggerSynthesis sampleCandidate []
    sys := sampleDeletedState
    synthesisAttempted := false
    synthCount := 0
    response := none }

/-- A tool that hangs, registered under the name `hang`. -/
def hangingTool : Tool :=
  { descriptor := { name := "hang", description := "hangs", parameterSchema := [],
                    kind := .dynamic }
    exec := hangingExec }

/-- A system state with the hanging tool registered. -/
def sampleHangState : SystemState :=
  { registry := [("hang", hangingTool)], ledger := [], storage := [] }

/-- A turn state about to execute the hanging tool. -/
def sampleHangTurn : TurnState :=
  { phase := .executeTool "hang" []
    sys := sampleHangState
    synthesisAttempted := false
    synthCount := 0
    response := none }

/-- A schema with one required string parameter named `x`. -/
def sampleSchema : List ParamSpec :=
  [{ name := "x", ptype := .tString, required := true }]

/-- A tool whose schema requires the parameter `x`. -/
def sampleSchemaTool : Tool :=
  { descriptor := { name := "needsx", description := "needs x",
                    parameterSchema := sampleSchema, kind := .builtin }
    exec := sampleExec }

/-- A sample character. -/
def sampleCharacter (n : String) : Character := { name := n }

/-- A character-context state with two characters, the first selected. -/
def sampleCharState : CharacterContextState :=
  { characters := [sampleCharacter "ada", sampleCharacter "bob"]
    selectedCharacter := some (sampleCharacter "ada")
    error := "" }

/-- A chat-context state with one active conversation and a pending
message list. -/
def sampleChatState : ChatContextState :=
  { conversations := [{ id := "c1", title := "Chat with ada" }]
    activeConversation := some { id := "c1", title := "Chat with ada" }
    messages := [{ id := "m1", conversationId := "c1", role := "user",
                   content := "hi", timestamp := "t0" }]
    isTyping := false
    loading := false
    error := "old" }

/-- A sample chat environment and API oracle. -/
def sampleChatEnv : ChatEnv :=
  { selectedCharacter := some (sampleCharacter "ada")
    uuidUser := "u1"
    uuidAssistant := "u2"
    now := "t1" }

/-- A sample API oracle whose requests all succeed. -/
def sampleChatApi : ChatApiOracle :=
  { createConversationResp := some { id := "c2", title := "Chat with ada" }
    chatResp := some "hello there" }

/-! # Theorems -/

/-! ### Registry helper lemmas -/

theorem find?_some_imp_any {α : Type} (l : List α) (p : α → Bool) (x : α)
    (h : l.find? p = some x) : l.any p = true := by
  induction l with
  | nil => simp [List.find?] at h
  | cons a t ih =>
    by_cases hpa : p a = true
    · simp [List.any_cons, hpa]
    · have hpa' : p a = false := Bool.eq_false_iff.mpr hpa
      rw [List.find?_cons, hpa'] at h
      simp [List.any_cons, hpa', ih h]

theorem find?_filter_not {α : Type} (l : List α) (p : α → Bool) :
    (l.filter (fun a => !(p a))).find? p = none := by
  induction l with
  | nil => rfl
  | cons a t ih =>
    by_cases hpa : p a = true
    · simp [List.filter_cons, hpa, ih]
    · have hpa' : p a = false := Bool.eq_false_iff.mpr hpa
      simp [List.filter_cons, hpa', List.find?_cons, ih]

theorem any_filter_not {α : Type} (l : List α) (p : α → Bool) :
    (l.filter (fun a => !(p a))).any p = false := by
  induction l with
  | nil => rfl
  | cons a t ih =>
    by_cases hpa : p a = true
    · simp [List.filter_cons, hpa, ih]
    · have hpa' : p a = false := Bool.eq_false_iff.mpr hpa
      simp [List.filter_cons, hpa', List.any_cons, ih]

theorem lookup_ok_imp_any (r : Registry) (name : String) (t : Tool)
    (h : lookupTool r name = .ok t) :
    r.any (fun e => e.1 == normalizeName name) = true := by
  unfold lookupTool at h
  cases hf : r.find? (fun e => e.1 == normalizeName name) with
  | none => rw [hf] at h; exact absurd h (by simp)
  | some e => exact find?_some_imp_any _ _ _ hf

theorem lookup_after_filter (r : Registry) (name : String) :
    lookupTool (r.filter (fun e => !(e.1 == normalizeName name))) name =
      .error .toolNotFoundError := by
  unfold lookupTool
  rw [find?_filter_not]

/-- The synthesizer never mutates the ledger. -/
theorem synthesize_ledger (structuralOk safetyOk : Candidate → Bool)
    (loadExec : Candidate → Exec) (st : SystemState) (c : Candidate) :
    (synthesize structuralOk safetyOk loadExec st c).1.ledger = st.ledger := by
  unfold synthesize
  by_cases h1 : structuralOk c = false
  · simp [h1]
  · simp only [h1, if_false]
    by_cases h2 : safetyOk c = false
    · simp [h2]
    · simp only [h2, if_false]
      by_cases h3 : isBlocked st.ledger (candidateFingerprint c) = true
      · simp [h3]
      · simp only [h3, if_false]
        cases registerTool st.registry (descriptorOfCandidate c) (loadExec c) with
        | ok r' => simp
        | error e => simp

/-- A blocked fingerprint stays blocked across any single engine step:
the ledger is append-only and durable. -/
theorem step_preserves_blocked (st st' : SystemState) (fp : Fingerprint)
    (hstep : SysStep st st') (hb : isBlocked st.ledger fp = true) :
    isBlocked st'.ledger fp = true := by
  cases hstep with
  | synth structuralOk safetyOk loadExec c st =>
    rw [synthesize_ledger]; exact hb
  | deleteT name now st =>
    unfold deleteToolOp
    cases lookupTool st.registry name with
    | error e => exact hb
    | ok t =>
      cases h : unregisterTool st.registry name with
      | error e => simp [h]; exact hb
      | ok r' => simp [h, recordDeletion, isBlocked, List.any_cons] at hb ⊢; right; exact hb
  | registerStartup d ex st =>
    unfold registerOp
    cases registerTool st.registry d ex with
    | ok r' => exact hb
    | error e => exact hb
  | restart builtins st =>
    exact hb

/-- A blocked fingerprint stays blocked in every reachable state. -/
theorem reachable_preserves_blocked (st st' : SystemState) (fp : Fingerprint)
    (hreach : SysReachable st st') (hb : isBlocked st.ledger fp = true) :
    isBlocked st'.ledger fp = true := by
  induction hreach with
  | refl => exact hb
  | tail _ hstep ih => exact step_preserves_blocked _ _ fp hstep ih

theorem find?_none_imp_any_false {α : Type} (l : List α) (p : α → Bool)
    (h : l.find? p = none) : l.any p = false := by
  induction l with
  | nil => rfl
  | cons a t ih =>
    by_cases hpa : p a = true
    · rw [List.find?_cons, hpa] at h
      exact absurd h (by simp)
    · have hpa' : p a = false := Bool.eq_false_iff.mpr hpa
      rw [List.find?_cons, hpa'] at h
      simp [List.any_cons, hpa', ih h]

theorem lookup_error_imp_any_false (r : Registry) (name : String)
    (h : lookupTool r name = .error .toolNotFoundError) :
    r.any (fun e => e.1 == normalizeName name) = false := by
  unfold lookupTool at h
  cases hf : r.find? (fun e => e.1 == normalizeName name) with
  | some e => rw [hf] at h; exact absurd h (by simp)
  | none => exact find?_none_imp_any_false _ _ hf

/-- C3: registering a descriptor whose name is already present in the
live registry fails with `RegistryConflict` and leaves the previously
registered descriptor and its executable binding unchanged; `register`
never silently overwrites. -/
theorem register_rejects_duplicate (st : SystemState) (d : ToolDescriptor)
    (ex : Exec) (t : Tool) (h : lookupTool st.registry d.name = .ok t) :
    registerOp st d ex = (st, .error .registryConflict) ∧
    lookupTool (registerOp st d ex).1.registry d.name = .ok t := by
  have hany := lookup_ok_imp_any st.registry d.name t h
  have hreg : registerTool st.registry d ex = .error .registryConflict := by
    unfold registerTool
    simp [hany]
  constructor
  · unfold registerOp
    rw [hreg]
  · unfold registerOp
    rw [hreg]
    exact h

/-- Exercises `register_rejects_duplicate` on a registry already holding
the tool `alpha`. -/
theorem register_rejects_duplicate_witness :
    registerOp sampleState1 (sampleDescriptor "alpha") sampleExec =
      (sampleState1, .error .registryConflict) :=
  (register_rejects_duplicate sampleState1 (sampleDescriptor "alpha")
    sampleExec (sampleTool "alpha") rfl).1

/-- C8: after a successful `unregister(name)`, `lookup(name)` fails with
`ToolNotFoundError` and a second `unregister(name)` also fails with
`ToolNotFoundError`; `unregister` on an absent name always fails with
`ToolNotFoundError`. -/
theorem unregister_no_double_free (r r' : Registry) (name : String) :
    (unregisterTool r name = .ok r' →
      lookupTool r' name = .error .toolNotFoundError ∧
      unregisterTool r' name = .error .toolNotFoundError) ∧
    (lookupTool r name = .error .toolNotFoundError →
      unregisterTool r name = .error .toolNotFoundError) := by
  constructor
  · intro h
    unfold unregisterTool at h
    by_cases hany : r.any (fun e => e.1 == normalizeName name) = true
    · rw [if_pos hany] at h
      have hr' : r.filter (fun e => !(e.1 == normalizeName name)) = r' := by
        simpa using h
      subst hr'
      refine ⟨lookup_after_filter r name, ?_⟩
      unfold unregisterTool
      rw [if_neg (by simp [any_filter_not])]
    · rw [if_neg hany] at h
      exact absurd h (by simp)
  · intro h
    have hany := lookup_error_imp_any_false r name h
    unfold unregisterTool
    rw [if_neg (by simp [hany])]

/-- Exercises `unregister_no_double_free`: removing `alpha` from the
sample registry, then looking it up and removing it again; and removing a
name from an empty registry. -/
theorem unregister_no_double_free_witness :
    (lookupTool ([] : Registry) "alpha" = .error .toolNotFoundError ∧
      unregisterTool ([] : Registry) "alpha" = .error .toolNotFoundError) ∧
    unregisterTool ([] : Registry) "beta" = .error .toolNotFoundError :=
  ⟨(unregister_no_double_free sampleState1.registry [] "alpha").1 rfl,
   (unregister_no_double_free ([] : Registry) [] "beta").2 rfl⟩

/-- C7: a successful `deleteTool(name)` applies both effects in one
transition — the tool is gone from the live registry and its fingerprint
is recorded in the ledger — while a failed `deleteTool` changes nothing;
no state carries one of the two updates without the other. -/
theorem deleteTool_unregisters_and_records (st : SystemState) (name : String)
    (now : Nat) :
    (∀ e, (deleteToolOp st name now).2 = .error e →
      (deleteToolOp st name now).1 = st) ∧
    ((deleteToolOp st name now).2 = .ok () →
      ∃ t, lookupTool st.registry name = .ok t ∧
        lookupTool (deleteToolOp st name now).1.registry name =
          .error .toolNotFoundError ∧
        isBlocked (deleteToolOp st name now).1.ledger
          (fingerprintOf t.descriptor) = true) := by
  unfold deleteToolOp
  cases hl : lookupTool st.registry name with
  | error e0 =>
    refine ⟨fun e h => rfl, fun h => absurd h (by simp)⟩
  | ok t =>
    have hany := lookup_ok_imp_any st.registry name t hl
    have hunreg : unregisterTool st.registry name =
        .ok (st.registry.filter (fun e => !(e.1 == normalizeName name))) := by
      unfold unregisterTool
      rw [if_pos hany]
    rw [hunreg]
    refine ⟨fun e h => absurd h (by simp), fun _ => ⟨t, rfl, ?_, ?_⟩⟩
    · exact lookup_after_filter st.registry name
    · simp [recordDeletion, isBlocked, List.any_cons]

/-- Exercises `deleteTool_unregisters_and_records` by deleting `alpha`
from the sample state. -/
theorem deleteTool_unregisters_and_records_witness :
    ∃ t, lookupTool sampleState1.registry "alpha" = .ok t ∧
      lookupTool (deleteToolOp sampleState1 "alpha" 5).1.registry "alpha" =
        .error .toolNotFoundError ∧
      isBlocked (deleteToolOp sampleState1 "alpha" 5).1.ledger
        (fingerprintOf t.descriptor) = true :=
  (deleteTool_unregisters_and_records sampleState1 "alpha" 5).2 rfl

/-- C1: once a capability's fingerprint is in the ledger, then in every
reachable later state — across deletions, registrations and process
restarts — a synthesis attempt for a candidate with that fingerprint is
blocked before persistence: the state (registry and storage included) is
unchanged, the attempt never registers the tool, and when the earlier
gates pass the failure surfaced is `LedgerBlocked`. -/
theorem deleted_fingerprint_blocks_synthesis (st st' : SystemState)
    (fp : Fingerprint) (structuralOk safetyOk : Candidate → Bool)
    (loadExec : Candidate → Exec) (c : Candidate)
    (hreach : SysReachable st st')
    (hdel : isBlocked st.ledger fp = true)
    (hfp : candidateFingerprint c = fp) :
    (synthesize structuralOk safetyOk loadExec st' c).1 = st' ∧
    (∀ d, (synthesize structuralOk safetyOk loadExec st' c).2 ≠ .ok d) ∧
    (structuralOk c = true → safetyOk c = true →
      (synthesize structuralOk safetyOk loadExec st' c).2 =
        .error .ledgerBlocked) := by
  have hb : isBlocked st'.ledger (candidateFingerprint c) = true := by
    rw [hfp]
    exact reachable_preserves_blocked st st' fp hreach hdel
  unfold synthesize
  by_cases h1 : structuralOk c = false
  · simp [h1]
  · have h1' : structuralOk c = true := eq_true_of_ne_false h1
    by_cases h2 : safetyOk c = false
    · simp [h1', h2]
    · have h2' : safetyOk c = true := eq_true_of_ne_false h2
      simp [h1', h2', hb]

/-- Exercises `deleted_fingerprint_blocks_synthesis` on a state whose
ledger records the deletion of the sample candidate's capability. -/
theorem deleted_fingerprint_blocks_synthesis_witness :
    (synthesize (fun _ => true) (fun _ => true) (fun _ => sampleExec)
        sampleDeletedState sampleCandidate).1 = sampleDeletedState ∧
    (synthesize (fun _ => true) (fun _ => true) (fun _ => sampleExec)
        sampleDeletedState sampleCandidate).2 = .error .ledgerBlocked := by
  have h := deleted_fingerprint_blocks_synthesis sampleDeletedState
    sampleDeletedState (candidateFingerprint sampleCandidate)
    (fun _ => true) (fun _ => true) (fun _ => sampleExec) sampleCandidate
    Relation.ReflTransGen.refl (by rfl) rfl
  exact ⟨h.1, h.2.2 rfl rfl⟩

/-- One orchestrator transition preserves the synthesis bound. -/
theorem orchStep_preserves_inv (ora : OrchOracle) (ts : TurnState)
    (h : synthCountInv ts) : synthCountInv (orchStep ora ts) := by
  obtain ⟨cls, sOk, fOk, lex, bud⟩ := ora
  obtain ⟨ph, sys, att, cnt, resp⟩ := ts
  obtain ⟨h1, h2, h3⟩ := h
  cases ph with
  | receiveMessage => exact ⟨h1, h2, fun c a hc => absurd hc (by simp [orchStep])⟩
  | classifyIntent =>
    cases cls with
    | direct txt => exact ⟨h1, h2, fun c a hc => absurd hc (by simp [orchStep, classifyPhase])⟩
    | useTool n a0 => exact ⟨h1, h2, fun c a hc => absurd hc (by simp [orchStep, classifyPhase])⟩
    | needsSynthesis c0 a0 =>
      cases att with
      | true =>
        refine ⟨h1, fun hf => absurd hf (by simp [orchStep, classifyPhase]), ?_⟩
        intro c a hc
        exact absurd hc (by simp [orchStep, classifyPhase])
      | false =>
        refine ⟨h1, h2, ?_⟩
        intro c a _
        simp [orchStep, classifyPhase]
  | selectTool n a0 => exact ⟨h1, h2, fun c a hc => absurd hc (by simp [orchStep])⟩
  | executeTool n a0 =>
    show synthCountInv (execPhase _ (lookupTool sys.registry n) bud a0)
    cases hlk : lookupTool sys.registry n with
    | error e => exact ⟨h1, h2, fun c a hc => absurd hc (by simp [execPhase])⟩
    | ok t =>
      show synthCountInv (execResultPhase _ (invokeTool bud t a0))
      cases hr : invokeTool bud t a0 with
      | success p => exact ⟨h1, h2, fun c a hc => absurd hc (by simp [execResultPhase])⟩
      | validationFailure reason =>
        exact ⟨h1, h2, fun c a hc => absurd hc (by simp [execResultPhase])⟩
      | executionFailure reason =>
        exact ⟨h1, h2, fun c a hc => absurd hc (by simp [execResultPhase])⟩
      | timeout => exact ⟨h1, h2, fun c a hc => absurd hc (by simp [execResultPhase])⟩
  | integrateResult p => exact ⟨h1, h2, fun c a hc => absurd hc (by simp [orchStep])⟩
  | triggerSynthesis c0 a0 =>
    have hat : att = false := h3 c0 a0 rfl
    subst hat
    have hcnt : cnt = 0 := h2 rfl
    subst hcnt
    show synthCountInv (synthPhase _ _ ((synthesize sOk fOk lex sys c0).2) a0)
    cases hs : (synthesize sOk fOk lex sys c0).2 with
    | ok d =>
      refine ⟨by simp [synthPhase], fun hf => absurd hf (by simp [synthPhase]), ?_⟩
      intro c a hc
      exact absurd hc (by simp [synthPhase])
    | error f =>
      refine ⟨by simp [synthPhase], fun hf => absurd hf (by simp [synthPhase]), ?_⟩
      intro c a hc
      exact absurd hc (by simp [synthPhase])
  | composeResponse m => exact ⟨h1, h2, fun c a hc => absurd hc (by simp [orchStep])⟩
  | appendHistory => exact ⟨h1, h2, fun c a hc => absurd hc (by simp [orchStep])⟩
  | done => exact ⟨h1, h2, fun c a hc => h3 c a hc⟩

/-- The synthesis bound holds at every point of a turn started fresh. -/
theorem synthCountInv_iterate (ora : OrchOracle) (sys : SystemState) (n : Nat) :
    synthCountInv ((orchStep ora)^[n] (initTurn sys)) := by
  induction n with
  | zero => exact ⟨Nat.zero_le 1, fun _ => rfl, fun c a hc => nomatch hc⟩
  | succ k ih =>
    rw [Function.iterate_succ_apply']
    exact orchStep_preserves_inv ora _ ih

/-- C2: over a whole turn the synthesizer is invoked at most once — the
synthesis counter never exceeds one at any point of the turn, however the
classification would re-trigger it — and a failing synthesis attempt
transitions directly to composing a plain-text apology, with no retry. -/
theorem synthesis_at_most_once_per_turn (ora : OrchOracle) (sys : SystemState) :
    (∀ n : Nat, ((orchStep ora)^[n] (initTurn sys)).synthCount ≤ 1) ∧
    (∀ (ts : TurnState) (c : Candidate) (a : Args) (f : SynthFailure),
      ts.phase = .triggerSynthesis c a →
      (synthesize ora.structuralOk ora.safetyOk ora.loadExec ts.sys c).2 =
        .error f →
      (orchStep ora ts).phase = .composeResponse .apology ∧
      (orchStep ora ts).synthCount = ts.synthCount + 1) := by
  constructor
  · intro n
    exact (synthCountInv_iterate ora sys n).1
  · intro ts c a f hp hs
    unfold orchStep
    rw [hp]
    simp only [hs]
    exact ⟨rfl, rfl⟩

/-- Exercises `synthesis_at_most_once_per_turn` on a turn whose synthesis
attempt is blocked by the ledger. -/
theorem synthesis_at_most_once_per_turn_witness :
    (orchStep sampleOracle sampleBlockedTurn).phase =
      .composeResponse .apology ∧
    ((orchStep sampleOracle)^[5] (initTurn sampleDeletedState)).synthCount ≤ 1 := by
  have h := synthesis_at_most_once_per_turn sampleOracle sampleDeletedState
  exact ⟨(h.2 sampleBlockedTurn sampleCandidate [] .ledgerBlocked rfl rfl).1,
    h.1 5⟩

/-- C6: tool execution runs under a bounded budget — a body that would
outlive the budget (or never finish) yields the `Timeout` variant, which
is distinct from `ExecutionFailure`; a turn whose tool times out still
reaches its terminal state with a `Timeout`-derived message, the shared
state is untouched, and the next turn behaves exactly as it would have
before the timeout. -/
theorem tool_timeout_bounded (ora : OrchOracle) (ts : TurnState) (n : String)
    (a : Args) (t : Tool)
    (hphase : ts.phase = .executeTool n a)
    (hlook : lookupTool ts.sys.registry n = .ok t)
    (hinv : invokeTool ora.budget t a = .timeout) :
    (∀ b : ToolBehavior, b.stepsNeeded = none →
      execWithTimeout ora.budget b = .timeout) ∧
    (∀ (b : ToolBehavior) (k : Nat), b.stepsNeeded = some k → ora.budget < k →
      execWithTimeout ora.budget b = .timeout) ∧
    (∀ reason, ToolInvocationResult.timeout ≠ .executionFailure reason) ∧
    ((orchStep ora)^[3] ts).phase = .done ∧
    ((orchStep ora)^[3] ts).response = some (.failureExplanation .timeout) ∧
    ((orchStep ora)^[3] ts).sys = ts.sys ∧
    runTurn ora ((orchStep ora)^[3] ts).sys = runTurn ora ts.sys := by
  have hstep1 : orchStep ora ts =
      { ts with phase := .composeResponse (.failureExplanation .timeout) } := by
    simp only [orchStep, hphase, hlook, execPhase, hinv, execResultPhase]
  have hfull : (orchStep ora)^[3] ts =
      { ts with phase := .done, response := some (.failureExplanation .timeout) } := by
    show orchStep ora (orchStep ora (orchStep ora ts)) = _
    rw [hstep1]
    rfl
  refine ⟨?_, ?_, ?_, ?_, ?_, ?_, ?_⟩
  · intro b hb
    unfold execWithTimeout
    rw [hb]
  · intro b k hb hk
    have hnle : ¬ k ≤ ora.budget := by omega
    simp [execWithTimeout, hb, hnle]
  · intro reason
    simp
  · rw [hfull]
  · rw [hfull]
  · rw [hfull]
  · rw [hfull]

/-- Exercises `tool_timeout_bounded` on a turn executing the registered
hanging tool. -/
theorem tool_timeout_bounded_witness :
    ((orchStep sampleOracle)^[3] sampleHangTurn).phase = .done ∧
    ((orchStep sampleOracle)^[3] sampleHangTurn).response =
      some (.failureExplanation .timeout) ∧
    ((orchStep sampleOracle)^[3] sampleHangTurn).sys = sampleHangTurn.sys := by
  have h := tool_timeout_bounded sampleOracle sampleHangTurn "hang" []
    hangingTool rfl rfl rfl
  exact ⟨h.2.2.2.1, h.2.2.2.2.1, h.2.2.2.2.2.1⟩

theorem all_eq_of_forall_eq {α : Type} (l : List α) (f g : α → Bool)
    (h : ∀ x ∈ l, f x = g x) : l.all f = l.all g := by
  induction l with
  | nil => rfl
  | cons a t ih =>
    simp only [List.all_cons, h a (by simp)]
    rw [ih (fun x hx => h x (by simp [hx]))]

theorem validate_false_of_bad_param (args : Args) (schema : List ParamSpec)
    (p : ParamSpec) (hp : p ∈ schema) (hbad : paramOk args p = false) :
    validateArguments args schema = false := by
  unfold validateArguments
  cases hall : schema.all (paramOk args)
  · rfl
  · have hptrue := List.all_eq_true.mp hall p hp
    rw [hbad] at hptrue
    exact absurd hptrue (by simp)

/-- C4: the contract layer validates before executing — a required
parameter that is missing or not type-coercible makes the invocation
return `ValidationFailure`, with a result independent of the tool's
executable body (no tool-specific code runs); and an extra argument whose
key names no schema parameter never changes the validation outcome. -/
theorem validation_precedes_execution (budget : Nat) :
    (∀ (t : Tool) (args : Args) (p : ParamSpec),
      p ∈ t.descriptor.parameterSchema → p.required = true →
      (findArg args p.name = none ∨
        ∃ v, findArg args p.name = some v ∧ typeCoercible v p.ptype = false) →
      invokeTool budget t args =
        .validationFailure "missing or invalid required parameter" ∧
      (∀ ex : Exec,
        invokeTool budget { t with exec := ex } args = invokeTool budget t args)) ∧
    (∀ (args : Args) (schema : List ParamSpec) (k : String) (v : Value),
      (∀ p ∈ schema, p.name ≠ k) →
      validateArguments ((k, v) :: args) schema =
        validateArguments args schema) := by
  constructor
  · intro t args p hp hreq hbad
    have hpo : paramOk args p = false := by
      unfold paramOk
      rw [hreq]
      cases hbad with
      | inl hnone => simp [hnone]
      | inr hex =>
        obtain ⟨v, hv, hcoer⟩ := hex
        simp [hv, hcoer]
    have hval : validateArguments args t.descriptor.parameterSchema = false :=
      validate_false_of_bad_param args _ p hp hpo
    constructor
    · simp [invokeTool, hval]
    · intro ex
      simp [invokeTool, hval]
  · intro args schema k v hk
    unfold validateArguments
    apply all_eq_of_forall_eq
    intro p hp
    have hne : (k == p.name) = false :=
      beq_eq_false_iff_ne.mpr (Ne.symm (hk p hp))
    unfold paramOk
    simp [findArg, List.find?_cons, hne]

/-- Exercises `validation_precedes_execution` on a tool requiring the
parameter `x` invoked without it, and on an unknown extra argument `y`. -/
theorem validation_precedes_execution_witness :
    invokeTool 10 sampleSchemaTool [] =
      .validationFailure "missing or invalid required parameter" ∧
    validateArguments [("y", .vStr "z")] sampleSchema =
      validateArguments [] sampleSchema := by
  have h := validation_precedes_execution 10
  refine ⟨(h.1 sampleSchemaTool []
      { name := "x", ptype := .tString, required := true }
      (by simp [sampleSchemaTool, sampleSchema]) rfl (Or.inl rfl)).1,
    h.2 [] sampleSchema "y" (.vStr "z") ?_⟩
  intro p hp
  simp [sampleSchema] at hp
  subst hp
  decide

theorem dropWhile_append_of_all {α : Type} (p : α → Bool) (l1 l2 : List α)
    (h : ∀ a ∈ l1, p a = true) :
    (l1 ++ l2).dropWhile p = l2.dropWhile p := by
  induction l1 with
  | nil => rfl
  | cons a t ih =>
    simp only [List.cons_append, List.dropWhile_cons, h a (by simp), if_true]
    exact ih (fun x hx => h x (by simp [hx]))

theorem text_events_are_text (xs : List String) :
    ∀ e ∈ (xs.map InternalEvent.textChunk).map serializeEvent,
      isText e = true := by
  intro e he
  simp only [List.map_map, List.mem_map, Function.comp] at he
  obtain ⟨s, _, rfl⟩ := he
  rfl

theorem filter_end_of_text_events (xs : List String) :
    ((xs.map InternalEvent.textChunk).map serializeEvent).filter isEndEvent =
      [] := by
  induction xs with
  | nil => rfl
  | cons a t ih =>
    simp [serializeEvent, isEndEvent, List.filter_cons, ih]

/-- C5: for every completed turn the externally produced stream matches
`TextChunk* (ToolInvoked ToolResult)? TextChunk* End`: tool events, when
present, appear as one matched invoked/result pair before completion, the
composer preserves emission order, and the stream is terminated by
exactly one end event (it is last, and it is the only one). -/
theorem stream_pattern_holds (pre post : List String)
    (tool : Option (String × Args × String)) :
    matchesTurnPattern (compose (produceTurn pre tool post)) = true ∧
    countEndEvents (compose (produceTurn pre tool post)) = 1 ∧
    (compose (produceTurn pre tool post)).getLast? =
      some { type := .endEvent, content := "" } := by
  have hdrop : ∀ (xs : List String) (l2 : List ExtEvent),
      (((xs.map InternalEvent.textChunk).map serializeEvent) ++ l2).dropWhile
          isText = l2.dropWhile isText :=
    fun xs l2 => dropWhile_append_of_all isText _ l2 (text_events_are_text xs)
  cases tool with
  | none =>
    unfold compose produceTurn
    simp only [List.map_append, List.append_nil, List.append_assoc]
    refine ⟨?_, ?_, ?_⟩
    · unfold matchesTurnPattern
      rw [hdrop, hdrop]
      rfl
    · unfold countEndEvents
      simp only [List.filter_append, filter_end_of_text_events]
      rfl
    · simp only [List.map_cons, List.map_nil]
      rw [← List.append_assoc, List.getLast?_concat]
      rfl
  | some tr =>
    obtain ⟨n, a, p⟩ := tr
    unfold compose produceTurn
    simp only [List.map_append, List.map_cons, List.map_nil, List.append_assoc,
      List.cons_append, List.nil_append]
    refine ⟨?_, ?_, ?_⟩
    · unfold matchesTurnPattern
      rw [hdrop]
      show matchesTail
        (List.dropWhile isText
          (serializeEvent (InternalEvent.toolInvoked n a) ::
            serializeEvent (InternalEvent.toolResult p) ::
              ((post.map InternalEvent.textChunk).map serializeEvent ++
                [serializeEvent InternalEvent.endOfTurn]))) = true
      rw [show List.dropWhile isText
          (serializeEvent (InternalEvent.toolInvoked n a) ::
            serializeEvent (InternalEvent.toolResult p) ::
              ((post.map InternalEvent.textChunk).map serializeEvent ++
                [serializeEvent InternalEvent.endOfTurn])) =
          serializeEvent (InternalEvent.toolInvoked n a) ::
            serializeEvent (InternalEvent.toolResult p) ::
              ((post.map InternalEvent.textChunk).map serializeEvent ++
                [serializeEvent InternalEvent.endOfTurn]) from rfl]
      show (isToolCode (serializeEvent (InternalEvent.toolInvoked n a)) &&
        isToolOutput (serializeEvent (InternalEvent.toolResult p)) &&
        matchesEnd
          (((post.map InternalEvent.textChunk).map serializeEvent ++
            [serializeEvent InternalEvent.endOfTurn]).dropWhile isText)) = true
      rw [hdrop]
      rfl
    · unfold countEndEvents
      simp only [List.filter_append, filter_end_of_text_events,
        List.filter_cons]
      rfl
    · rw [show
        List.map serializeEvent (List.map InternalEvent.textChunk pre) ++
          serializeEvent (InternalEvent.toolInvoked n a) ::
            serializeEvent (InternalEvent.toolResult p) ::
              (List.map serializeEvent (List.map InternalEvent.textChunk post) ++
                [serializeEvent InternalEvent.endOfTurn]) =
        (List.map serializeEvent (List.map InternalEvent.textChunk pre) ++
          serializeEvent (InternalEvent.toolInvoked n a) ::
            serializeEvent (InternalEvent.toolResult p) ::
              List.map serializeEvent (List.map InternalEvent.textChunk post)) ++
          [serializeEvent InternalEvent.endOfTurn] from by simp]
      rw [List.getLast?_concat]
      rfl

/-- C9: `sendMessage` with whitespace-only content and no attachments
returns immediately — no HTTP request is issued, no message is returned,
and the whole context state (messages, typing indicator, conversations)
is unchanged. -/
theorem sendMessage_whitespace_noop (api : ChatApiOracle) (env : ChatEnv)
    (content : String) (attachments : List String) (s : ChatContextState)
    (hc : trimString content = "") (ha : attachments = []) :
    (sendMessage api env content attachments s).1 = s ∧
    (sendMessage api env content attachments s).2.1 = [] ∧
    (sendMessage api env content attachments s).2.2 = none := by
  have hguard : ((trimString content).isEmpty && attachments.isEmpty) = true := by
    rw [hc, ha]
    rfl
  refine ⟨?_, ?_, ?_⟩ <;> simp [sendMessage, hguard]

/-- Exercises `sendMessage_whitespace_noop` on a three-space message. -/
theorem sendMessage_whitespace_noop_witness :
    (sendMessage sampleChatApi sampleChatEnv "   " [] sampleChatState).1 =
      sampleChatState ∧
    (sendMessage sampleChatApi sampleChatEnv "   " [] sampleChatState).2.1 =
      [] ∧
    (sendMessage sampleChatApi sampleChatEnv "   " [] sampleChatState).2.2 =
      none :=
  sendMessage_whitespace_noop sampleChatApi sampleChatEnv "   " []
    sampleChatState (by decide) rfl

/-- C10: a successful `deleteCharacter(name)` removes every character so
named from the list, the remaining selection never points at the deleted
name, and when the deleted character was the selected one the selection
moves to a remaining character or to null. -/
theorem deleteCharacter_removes_and_reselects (name : String)
    (s : CharacterContextState) :
    (deleteCharacter true name s).2 = true ∧
    (∀ c ∈ (deleteCharacter true name s).1.characters, c.name ≠ name) ∧
    (∀ c, (deleteCharacter true name s).1.selectedCharacter = some c →
      c.name ≠ name) ∧
    (∀ sel, s.selectedCharacter = some sel → sel.name = name →
      (deleteCharacter true name s).1.selectedCharacter = none ∨
      ∃ c, (deleteCharacter true name s).1.selectedCharacter = some c ∧
        c ∈ (deleteCharacter true name s).1.characters) := by
  obtain ⟨chars, selOpt, err⟩ := s
  refine ⟨rfl, ?_, ?_, ?_⟩
  · intro c hc
    have hc' : c ∈ chars.filter (fun c => !(c.name == name)) := hc
    rw [List.mem_filter] at hc'
    have hbeq : (c.name == name) = false := by simpa using hc'.2
    exact beq_eq_false_iff_ne.mp hbeq
  · intro c hsel
    cases selOpt with
    | none => exact absurd hsel (by simp [deleteCharacter])
    | some sel =>
      by_cases hn : (sel.name == name) = true
      · have hsel' : (chars.filter (fun c => !(c.name == name))).head? =
            some c := by
          simpa [deleteCharacter, hn] using hsel
        have hmem : c ∈ chars.filter (fun c => !(c.name == name)) :=
          List.mem_of_mem_head? (by rw [hsel']; rfl)
        rw [List.mem_filter] at hmem
        have hbeq : (c.name == name) = false := by simpa using hmem.2
        exact beq_eq_false_iff_ne.mp hbeq
      · have hn' : (sel.name == name) = false := eq_false_of_ne_true hn
        have hsel' : some sel = some c := by
          simpa [deleteCharacter, hn'] using hsel
        cases hsel'
        exact beq_eq_false_iff_ne.mp hn'
  · intro sel hsel hname
    cases selOpt with
    | none => cases hsel
    | some sel0 =>
      cases hsel
      have hbeq : (sel.name == name) = true := beq_iff_eq.mpr hname
      cases hh : (chars.filter (fun c => !(c.name == name))).head? with
      | none =>
        left
        simp [deleteCharacter, hbeq, hh]
      | some c =>
        right
        refine ⟨c, by simp [deleteCharacter, hbeq, hh], ?_⟩
        show c ∈ chars.filter (fun c => !(c.name == name))
        exact List.mem_of_mem_head? (by rw [hh]; rfl)

/-- Exercises `deleteCharacter_removes_and_reselects` by deleting the
selected character `ada` from the sample state. -/
theorem deleteCharacter_removes_and_reselects_witness :
    (deleteCharacter true "ada" sampleCharState).2 = true ∧
    ((deleteCharacter true "ada" sampleCharState).1.selectedCharacter = none ∨
      ∃ c, (deleteCharacter true "ada" sampleCharState).1.selectedCharacter =
          some c ∧
        c ∈ (deleteCharacter true "ada" sampleCharState).1.characters) := by
  have h := deleteCharacter_removes_and_reselects "ada" sampleCharState
  exact ⟨h.1, h.2.2.2 (sampleCharacter "ada") rfl rfl⟩

end AgenticLLM
